import Mathlib

/-!
Verification of the Socket.IO episode comment/chat relay server.

The server keeps two in-memory JavaScript `Map`s:
  * `episodeRooms : room -> { animeId, episodeId, comments, users }`
  * `chatMessages : room -> message list`
and reacts to the socket events `join_episode`, `new_comment`,
`comment_deleted`, `join_chat`, `send_message`, `get_chat_history`,
`leave_episode`, `leave_chat` and `disconnect`.

The embedding below models JavaScript `Map`s as association lists
(first-match lookup, in-place replacement on `set`), `Set`s of socket
ids as duplicate-free lists in insertion order, and socket.io room
membership (`socket.join` / `socket.leave` / `io.to(room).emit`) as a
separate association list from room name to member list.  Each event
handler is a pure function from the server state (plus the inputs the
environment supplies: the sender's socket id and, where the code calls
`Date.now()`/`new Date()`/`Math.random()`, a generated id and timestamp)
to the new state together with the list of emitted events, each paired
with the socket id it is delivered to.
-/

/-- Association-list model of a JavaScript `Map` keyed by strings:
`Map.get` returns the first binding of the key. -/
def mget {α : Type} : List (String × α) → String → Option α
  | [], _ => none
  | (k', v) :: rest, k => if k' = k then some v else mget rest k

/-- `Map.set`: replaces the first binding of the key in place, otherwise
appends a new binding (JS `Map` keeps insertion order). -/
def mset {α : Type} : List (String × α) → String → α → List (String × α)
  | [], k, v => [(k, v)]
  | (k', v') :: rest, k, v =>
      if k' = k then (k, v) :: rest else (k', v') :: mset rest k v

/-- `Map.delete`: removes the first binding of the key. -/
def mdel {α : Type} : List (String × α) → String → List (String × α)
  | [], _ => []
  | (k', v') :: rest, k => if k' = k then rest else (k', v') :: mdel rest k

/-- JS `Set.add` on a duplicate-free list in insertion order. -/
def addMem (sid : String) (l : List String) : List String :=
  if sid ∈ l then l else l ++ [sid]

/-- JS `Set.delete`. -/
def delMem (sid : String) (l : List String) : List String :=
  l.filter (fun x => decide (x ≠ sid))

/-- The cap logic shared by both handlers:
`arr.push(x); if (arr.length > cap) arr = arr.slice(-cap)`.
`slice(-cap)` keeps the last `cap` elements, i.e. drops
`length - cap` from the front. -/
def capPush {α : Type} (cap : Nat) (l : List α) (x : α) : List α :=
  if (l ++ [x]).length > cap
  then (l ++ [x]).drop ((l ++ [x]).length - cap)
  else l ++ [x]

/-- JS truthiness test on an optional string field:
`undefined` and `""` are falsy. -/
def falsy : Option String → Bool
  | none => true
  | some s => s = ""

/-- A comment object as received by `new_comment` (and, after the server
mutates it, as stored/broadcast).  Fields the handlers never touch are
carried verbatim. -/
structure CommentIn where
  animeId : String
  episodeId : String
  id : Option String
  createdAt : Option String
  body : String
  authorId : String
  authorName : String
deriving DecidableEq

/-- A chat message object as received by `send_message` (and, enriched,
as stored/broadcast). -/
structure ChatMsg where
  animeId : String
  episodeId : String
  text : Option String
  image : Option String
  id : Option String
  timestamp : Option String
  authorId : String
deriving DecidableEq

/-- `new_comment` enrichment:
`if (!comment.id) comment.id = ...; if (!comment.createdAt) comment.createdAt = ...`. -/
def enrichComment (c : CommentIn) (genId now : String) : CommentIn :=
  let c1 := if falsy c.id then { c with id := some genId } else c
  if falsy c1.createdAt then { c1 with createdAt := some now } else c1

/-- `send_message` enrichment:
`{...messageData, id: Date.now()...+random, timestamp: messageData.timestamp || new Date()...}` —
the id is assigned unconditionally, the timestamp only when falsy. -/
def enrichChat (m : ChatMsg) (genId now : String) : ChatMsg :=
  { m with id := some genId
         , timestamp := if falsy m.timestamp then some now else m.timestamp }

/-- Per-room record held in `episodeRooms`. -/
structure RoomData where
  animeId : String
  episodeId : String
  comments : List CommentIn
  users : List String
deriving DecidableEq

/-- Full server state: socket.io adapter rooms plus the two stores. -/
structure ServerState where
  sioRooms : List (String × List String)
  episodeRooms : List (String × RoomData)
  chatMessages : List (String × List ChatMsg)
deriving DecidableEq

/-- The empty state at server start. -/
def initState : ServerState := ⟨[], [], []⟩

/-- Room key for episode comments: `episode:animeId:episodeId`. -/
def keyEpisode (a e : String) : String := "episode:" ++ a ++ ":" ++ e

/-- Room key for chat: `chat:animeId:episodeId`. -/
def keyChat (a e : String) : String := "chat:" ++ a ++ ":" ++ e

/-- Current socket.io membership of a room (empty if the room is unknown). -/
def sioMembers (st : ServerState) (room : String) : List String :=
  (mget st.sioRooms room).getD []

/-- `socket.join(room)`. -/
def sioJoin (st : ServerState) (sid room : String) : ServerState :=
  { st with sioRooms := mset st.sioRooms room (addMem sid (sioMembers st room)) }

/-- `socket.leave(room)`. -/
def sioLeave (st : ServerState) (sid room : String) : ServerState :=
  match mget st.sioRooms room with
  | none => st
  | some l => { st with sioRooms := mset st.sioRooms room (delMem sid l) }

/-- On disconnect socket.io removes the socket from every room. -/
def sioLeaveAll (st : ServerState) (sid : String) : ServerState :=
  { st with sioRooms := st.sioRooms.map (fun p => (p.1, delMem sid p.2)) }

/-- Server-to-client events. `errorMsg` models `socket.emit('error', ...)`,
which the code only reaches from `catch` blocks; the pure model never
throws, so no handler below emits it. -/
inductive SEvent where
  | newComment (c : CommentIn)
  | commentsUpdated (cs : List CommentIn)
  | commentDeleted (cid : String)
  | newMessage (m : ChatMsg)
  | chatHistory (ms : List ChatMsg)
  | errorMsg (s : String)
deriving DecidableEq

/-- `io.to(room).emit(ev)`: one delivery per current member of the room. -/
def broadcast (st : ServerState) (room : String) (ev : SEvent) :
    List (String × SEvent) :=
  (sioMembers st room).map (fun s => (s, ev))

/-- Events of the emission list delivered to one socket. -/
def deliveredTo (sid : String) (out : List (String × SEvent)) : List SEvent :=
  (out.filter (fun p => decide (p.1 = sid))).map (fun p => p.2)

/-- `socket.on('join_episode')`: join the socket.io room, lazily create
the `episodeRooms` entry, add the socket to the room's user set, send
the current comments back to the joining socket. -/
def handleJoinEpisode (st : ServerState) (sid a e : String) :
    ServerState × List (String × SEvent) :=
  let room := keyEpisode a e
  let st1 := sioJoin st sid room
  let rd : RoomData := match mget st1.episodeRooms room with
            | none => ⟨a, e, [], []⟩
            | some rd => rd
  let rd' := { rd with users := addMem sid rd.users }
  ({ st1 with episodeRooms := mset st1.episodeRooms room rd' },
   [(sid, SEvent.commentsUpdated rd'.comments)])

/-- `socket.on('new_comment')`: only if the room already exists, enrich
the comment, push it, trim to the last 100, and broadcast `new_comment`
to everyone in the room (the sender included).  If the room does not
exist the handler only logs a warning. -/
def handleNewComment (st : ServerState) (_sid : String) (c : CommentIn)
    (genId now : String) : ServerState × List (String × SEvent) :=
  let room := keyEpisode c.animeId c.episodeId
  match mget st.episodeRooms room with
  | some rd =>
      let stored := enrichComment c genId now
      let comments' := capPush 100 rd.comments stored
      let er' := mset st.episodeRooms room { rd with comments := comments' }
      ({ st with episodeRooms := er' },
       broadcast st room (SEvent.newComment stored))
  | none => (st, [])

/-- `socket.on('comment_deleted')`: if the room exists, keep only the
comments whose id differs from the requested one
(`comments.filter(c => c.id !== commentId)`) and broadcast the deletion;
otherwise do nothing.  The payload carries no requester identity and no
authorization check is performed. -/
def handleCommentDeleted (st : ServerState) (_sid cid a e : String) :
    ServerState × List (String × SEvent) :=
  let room := keyEpisode a e
  match mget st.episodeRooms room with
  | some rd =>
      let comments' := rd.comments.filter (fun c => decide (c.id ≠ some cid))
      let er' := mset st.episodeRooms room { rd with comments := comments' }
      ({ st with episodeRooms := er' },
       broadcast st room (SEvent.commentDeleted cid))
  | none => (st, [])

/-- `socket.on('join_chat')`: join the socket.io room and lazily create
the chat history entry. -/
def handleJoinChat (st : ServerState) (sid a e : String) :
    ServerState × List (String × SEvent) :=
  let room := keyChat a e
  let st1 := sioJoin st sid room
  let st2 := if (mget st1.chatMessages room).isNone
             then { st1 with chatMessages := mset st1.chatMessages room [] }
             else st1
  (st2, [])

/-- `socket.on('send_message')`: lazily create the chat history, enrich
the message, push it, trim to the last 100, broadcast `new_message` to
everyone in the chat room (the sender included). -/
def handleSendMessage (st : ServerState) (_sid : String) (m : ChatMsg)
    (genId now : String) : ServerState × List (String × SEvent) :=
  let room := keyChat m.animeId m.episodeId
  let cm0 := if (mget st.chatMessages room).isNone
             then mset st.chatMessages room []
             else st.chatMessages
  let msgs := (mget cm0 room).getD []
  let stored := enrichChat m genId now
  let msgs' := capPush 100 msgs stored
  ({ st with chatMessages := mset cm0 room msgs' },
   broadcast st room (SEvent.newMessage stored))

/-- `socket.on('get_chat_history')`: reply (via the callback) with the
current history, `[]` if the room is unknown. -/
def handleGetChatHistory (st : ServerState) (sid a e : String) :
    ServerState × List (String × SEvent) :=
  let room := keyChat a e
  (st, [(sid, SEvent.chatHistory ((mget st.chatMessages room).getD []))])

/-- `socket.on('leave_episode')`: leave the socket.io room; if the
`episodeRooms` entry exists, remove the socket from its user set and
delete the whole entry when the set becomes empty. -/
def handleLeaveEpisode (st : ServerState) (sid a e : String) :
    ServerState × List (String × SEvent) :=
  let room := keyEpisode a e
  let st1 := sioLeave st sid room
  match mget st1.episodeRooms room with
  | some rd =>
      let users' := delMem sid rd.users
      if users' = [] then
        ({ st1 with episodeRooms := mdel st1.episodeRooms room }, [])
      else
        let er' := mset st1.episodeRooms room { rd with users := users' }
        ({ st1 with episodeRooms := er' }, [])
  | none => (st1, [])

/-- `socket.on('leave_chat')`: only leaves the socket.io room; the chat
history is never touched. -/
def handleLeaveChat (st : ServerState) (sid a e : String) :
    ServerState × List (String × SEvent) :=
  (sioLeave st sid (keyChat a e), [])

/-- The `disconnect` sweep over `episodeRooms`: every room containing the
socket loses it, and rooms whose user set becomes empty are deleted. -/
def disconnectRooms (sid : String) (m : List (String × RoomData)) :
    List (String × RoomData) :=
  m.filterMap (fun p =>
    if sid ∈ p.2.users then
      let users' := delMem sid p.2.users
      if users' = [] then none
      else some (p.1, { p.2 with users := users' })
    else some p)

/-- `socket.on('disconnect')`: socket.io drops the socket from all rooms,
then the handler sweeps `episodeRooms`; `chatMessages` is untouched. -/
def handleDisconnect (st : ServerState) (sid : String) :
    ServerState × List (String × SEvent) :=
  let st1 := sioLeaveAll st sid
  ({ st1 with episodeRooms := disconnectRooms sid st1.episodeRooms }, [])

/-- Client-to-server events, each carrying the sender's socket id and,
for the two handlers that generate ids/timestamps, the generated values. -/
inductive CEvent where
  | joinEpisode (sid a e : String)
  | newComment (sid : String) (c : CommentIn) (genId now : String)
  | commentDeleted (sid cid a e : String)
  | joinChat (sid a e : String)
  | sendMessage (sid : String) (m : ChatMsg) (genId now : String)
  | getChatHistory (sid a e : String)
  | leaveEpisode (sid a e : String)
  | leaveChat (sid a e : String)
  | disconnect (sid : String)
deriving DecidableEq

/-- One event-loop step. -/
def step (st : ServerState) : CEvent → ServerState × List (String × SEvent)
  | .joinEpisode sid a e => handleJoinEpisode st sid a e
  | .newComment sid c g n => handleNewComment st sid c g n
  | .commentDeleted sid cid a e => handleCommentDeleted st sid cid a e
  | .joinChat sid a e => handleJoinChat st sid a e
  | .sendMessage sid m g n => handleSendMessage st sid m g n
  | .getChatHistory sid a e => handleGetChatHistory st sid a e
  | .leaveEpisode sid a e => handleLeaveEpisode st sid a e
  | .leaveChat sid a e => handleLeaveChat st sid a e
  | .disconnect sid => handleDisconnect st sid

/-- Run a sequence of events. -/
def run (st : ServerState) (evs : List CEvent) : ServerState :=
  evs.foldl (fun s ev => (step s ev).1) st

/-- Events that address an episode (comments) room. -/
def isEpisodeOp : CEvent → Bool
  | .joinEpisode _ _ _ => true
  | .newComment _ _ _ _ => true
  | .commentDeleted _ _ _ _ => true
  | .leaveEpisode _ _ _ => true
  | _ => false

/-- Events that address a chat room. -/
def isChatOp : CEvent → Bool
  | .joinChat _ _ _ => true
  | .sendMessage _ _ _ _ => true
  | .getChatHistory _ _ _ => true
  | .leaveChat _ _ _ => true
  | _ => false

/-- Lifecycle invariant of the episode-room store: every stored room has
a non-empty user set. -/
def GoodRooms (m : List (String × RoomData)) : Prop :=
  ∀ p ∈ m, p.2.users ≠ []

/-- The keys of an association list are pairwise distinct (any state
built through `mset`/`mdel` from the empty map satisfies this). -/
abbrev keysNodup {α : Type} (m : List (String × α)) : Prop :=
  (m.map Prod.fst).Nodup

/-- Pairwise-distinct comment bodies for the 201-post scenario. -/
def distinctBody (i : Nat) : String := String.mk (List.replicate i 'x')

/-- The i-th comment posted in the 201-post scenario. -/
def scComment (i : Nat) : CommentIn :=
  ⟨"42", "3", none, none, distinctBody i, "u1", "Ann"⟩

/-- The i-th comment as stored by the server. -/
def scStored (i : Nat) : CommentIn := enrichComment (scComment i) "g" "t"

/-- The event sequence posting `n` comments to room `(42, 3)`. -/
def scEvents (n : Nat) : List CEvent :=
  (List.range n).map (fun i => CEvent.newComment "A" (scComment i) "g" "t")

/-- State after one join and `n` comment posts to room `(42, 3)`. -/
def scenarioState (n : Nat) : ServerState :=
  run initState (CEvent.joinEpisode "A" "42" "3" :: scEvents n)

/-- Concrete comment used in the broadcast fan-out scenario. -/
def c1comment : CommentIn := ⟨"42", "3", none, none, "great ep", "u1", "Ann"⟩

/-- Three sessions A, B, C joined to the comments room of `(42, 3)`. -/
def c1state : ServerState :=
  run initState
    [CEvent.joinEpisode "A" "42" "3", CEvent.joinEpisode "B" "42" "3",
     CEvent.joinEpisode "C" "42" "3"]

/-- A comment whose body is empty. -/
def c3comment : CommentIn := ⟨"42", "3", none, none, "", "u1", "Ann"⟩

/-- One session A joined to the comments room of `(42, 3)`. -/
def c3state : ServerState := run initState [CEvent.joinEpisode "A" "42" "3"]

/-- A comment authored by `userA` with a client-supplied id and timestamp. -/
def c4comment : CommentIn :=
  ⟨"42", "3", some "cid1", some "t1", "nice", "userA", "Alice"⟩

/-- A joins, B joins, A posts `c4comment`, then session B (which carries
no author identity at all in the delete payload) deletes it. -/
def c4events : List CEvent :=
  [CEvent.joinEpisode "A" "42" "3", CEvent.joinEpisode "B" "42" "3",
   CEvent.newComment "A" c4comment "g" "t",
   CEvent.commentDeleted "B" "cid1" "42" "3"]

/-- First comment carrying the client-supplied id `d`. -/
def c5dup : CommentIn := ⟨"42", "3", some "d", some "t", "one", "u1", "Ann"⟩

/-- Second comment carrying the same client-supplied id `d`. -/
def c5dup2 : CommentIn := ⟨"42", "3", some "d", some "t", "two", "u2", "Bob"⟩

/-- A comment with a different id `k`. -/
def c5other : CommentIn := ⟨"42", "3", some "k", some "t", "three", "u3", "Cat"⟩

/-- Post two comments sharing id `d` plus one with id `k`, then delete
id `d`. -/
def c5events : List CEvent :=
  [CEvent.joinEpisode "A" "42" "3",
   CEvent.newComment "A" c5dup "g1" "t1",
   CEvent.newComment "A" c5dup2 "g2" "t2",
   CEvent.newComment "A" c5other "g3" "t3",
   CEvent.commentDeleted "A" "d" "42" "3"]

/-- A comment sent to a room no session has ever joined. -/
def c6comment : CommentIn := ⟨"42", "3", none, none, "hello", "u1", "Ann"⟩

/-- A chat message that already carries an id and a timestamp. -/
def c8msg : ChatMsg := ⟨"42", "3", some "hi", none, some "myid", some "ts", "u1"⟩

/-! ### Association-list map lemmas -/

theorem mget_mset_self {α : Type} :
    ∀ (m : List (String × α)) (k : String) (v : α), mget (mset m k v) k = some v
  | [], k, v => by simp [mset, mget]
  | (k', v') :: rest, k, v => by
      by_cases h : k' = k
      · simp [mset, h, mget]
      · simp [mset, h, mget, mget_mset_self rest k v]

theorem mget_mset_ne {α : Type} :
    ∀ (m : List (String × α)) (k k₂ : String) (v : α), k₂ ≠ k →
      mget (mset m k v) k₂ = mget m k₂
  | [], k, k₂, v, h => by
      have hne : ¬ k = k₂ := fun hh => h hh.symm
      simp [mset, mget, hne]
  | (k', v') :: rest, k, k₂, v, h => by
      have hne : ¬ k = k₂ := fun hh => h hh.symm
      by_cases h' : k' = k
      · subst h'
        simp [mset, mget, hne]
      · simp only [mset, if_neg h', mget]
        by_cases h'' : k' = k₂
        · simp [h'']
        · simp [h'', mget_mset_ne rest k k₂ v h]

theorem mget_mem {α : Type} :
    ∀ {m : List (String × α)} {k : String} {v : α}, mget m k = some v → (k, v) ∈ m
  | (k', v') :: rest, k, v, h => by
      by_cases h' : k' = k
      · subst h'
        have h2 : v' = v := by simpa [mget] using h
        subst h2
        exact List.mem_cons_self _ _
      · simp only [mget, if_neg h'] at h
        exact List.mem_cons_of_mem _ (mget_mem h)

theorem mem_mset {α : Type} :
    ∀ {m : List (String × α)} {k : String} {v : α} {p : String × α},
      p ∈ mset m k v → p ∈ m ∨ p = (k, v)
  | [], k, v, p, h => by
      simp [mset] at h; exact Or.inr h
  | (k', v') :: rest, k, v, p, h => by
      by_cases h' : k' = k
      · simp only [mset, if_pos h', List.mem_cons] at h
        rcases h with h | h
        · exact Or.inr h
        · exact Or.inl (List.mem_cons_of_mem _ h)
      · simp only [mset, if_neg h', List.mem_cons] at h
        rcases h with h | h
        · exact Or.inl (by simp [h])
        · rcases mem_mset h with h | h
          · exact Or.inl (List.mem_cons_of_mem _ h)
          · exact Or.inr h

theorem mem_mdel {α : Type} :
    ∀ {m : List (String × α)} {k : String} {p : String × α},
      p ∈ mdel m k → p ∈ m
  | (k', v') :: rest, k, p, h => by
      by_cases h' : k' = k
      · simp only [mdel, if_pos h'] at h
        exact List.mem_cons_of_mem _ h
      · simp only [mdel, if_neg h', List.mem_cons] at h
        rcases h with h | h
        · exact h ▸ List.mem_cons_self _ _
        · exact List.mem_cons_of_mem _ (mem_mdel h)

theorem mget_eq_none_of_not_mem_keys {α : Type} :
    ∀ {m : List (String × α)} {k : String}, k ∉ m.map Prod.fst → mget m k = none
  | [], k, _ => rfl
  | (k', v') :: rest, k, h => by
      simp only [List.map_cons, List.mem_cons] at h
      push_neg at h
      have hne : ¬ k' = k := fun hh => h.1 hh.symm
      simp only [mget, if_neg hne]
      exact mget_eq_none_of_not_mem_keys h.2

theorem mget_mdel_self {α : Type} :
    ∀ {m : List (String × α)} {k : String}, (m.map Prod.fst).Nodup →
      mget (mdel m k) k = none
  | [], k, _ => rfl
  | (k', v') :: rest, k, hnd => by
      simp only [List.map_cons, List.nodup_cons] at hnd
      by_cases h' : k' = k
      · subst h'
        simp only [mdel, if_pos rfl]
        exact mget_eq_none_of_not_mem_keys hnd.1
      · simp only [mdel, if_neg h', mget, if_neg h']
        exact mget_mdel_self hnd.2

theorem mset_mset_same {α : Type} :
    ∀ (m : List (String × α)) (k : String) (v w : α),
      mset (mset m k v) k w = mset m k w
  | [], k, v, w => by simp [mset]
  | (k', v') :: rest, k, v, w => by
      by_cases h' : k' = k
      · simp [mset, h']
      · simp [mset, h', mset_mset_same rest k v w]

/-! ### Member-list lemmas -/

theorem addMem_ne_nil (sid : String) (l : List String) : addMem sid l ≠ [] := by
  unfold addMem
  by_cases h : sid ∈ l
  · simp only [if_pos h]
    intro hnil
    rw [hnil] at h
    cases h
  · simp [if_neg h]

theorem filter_eq_singleton_of_nodup :
    ∀ (l : List String) (a : String), l.Nodup → a ∈ l →
      l.filter (fun x => decide (x = a)) = [a]
  | [], a, _, hmem => absurd hmem (List.not_mem_nil a)
  | b :: l, a, hnd, hmem => by
      simp only [List.nodup_cons] at hnd
      rcases List.mem_cons.mp hmem with h | h
      · subst h
        have hfil : l.filter (fun x => decide (x = a)) = [] := by
          rw [List.filter_eq_nil_iff]
          intro x hx
          simp only [decide_eq_true_eq]
          intro hxa
          exact hnd.1 (hxa ▸ hx)
        simp [List.filter_cons, hfil]
      · have hba : ¬ (b = a) := fun hh => hnd.1 (hh ▸ h)
        simp only [List.filter_cons, decide_eq_true_eq, if_neg hba]
        exact filter_eq_singleton_of_nodup l a hnd.2 h

theorem deliveredTo_broadcast (st : ServerState) (room : String) (ev : SEvent)
    (sid : String) (hnd : (sioMembers st room).Nodup)
    (hmem : sid ∈ sioMembers st room) :
    deliveredTo sid (broadcast st room ev) = [ev] := by
  unfold deliveredTo broadcast
  rw [List.filter_map, List.map_map]
  have hpf : (fun p : String × SEvent => decide (p.1 = sid)) ∘
      (fun s => (s, ev)) = fun x => decide (x = sid) := rfl
  rw [hpf, filter_eq_singleton_of_nodup _ _ hnd hmem]
  rfl

/-! ### Cap logic lemmas -/

theorem capPush_eq_drop {α : Type} (cap : Nat) (l : List α) (x : α) :
    capPush cap l x = (l ++ [x]).drop ((l ++ [x]).length - cap) := by
  unfold capPush
  split
  · rfl
  · rename_i h'
    have h0 : (l ++ [x]).length - cap = 0 := by
      simp only [List.length_append, List.length_cons, List.length_nil] at h' ⊢
      omega
    rw [h0, List.drop_zero]

theorem length_capPush_le {α : Type} (cap : Nat) (l : List α) (x : α) :
    (capPush cap l x).length ≤ cap := by
  rw [capPush_eq_drop cap l x, List.length_drop]
  omega

theorem foldl_capPush {α : Type} (cap : Nat) :
    ∀ (xs l : List α), l.length ≤ cap →
      List.foldl (capPush cap) l xs = (l ++ xs).drop ((l ++ xs).length - cap)
  | [], l, h => by
      have h0 : l.length - cap = 0 := by omega
      simp [h0]
  | x :: xs, l, h => by
      rw [List.foldl_cons,
        foldl_capPush cap xs (capPush cap l x) (length_capPush_le cap l x),
        capPush_eq_drop cap l x]
      have h0 : (l ++ [x]).length - cap - (l ++ [x]).length = 0 := by omega
      have hsplit : ((l ++ [x]) ++ xs).drop ((l ++ [x]).length - cap)
          = (l ++ [x]).drop ((l ++ [x]).length - cap) ++ xs := by
        rw [List.drop_append_eq_append_drop, h0, List.drop_zero]
      rw [← hsplit, List.drop_drop]
      have hT : l ++ [x] ++ xs = l ++ x :: xs := by simp
      rw [hT]
      congr 1
      simp only [List.length_drop, List.length_append, List.length_cons,
        List.length_nil]
      omega

/-! ### Handler unfolding lemmas -/

theorem handleNewComment_some (st : ServerState) (sid : String) (c : CommentIn)
    (g t : String) (rd : RoomData)
    (h : mget st.episodeRooms (keyEpisode c.animeId c.episodeId) = some rd) :
    handleNewComment st sid c g t
      = (⟨st.sioRooms,
          mset st.episodeRooms (keyEpisode c.animeId c.episodeId)
            ⟨rd.animeId, rd.episodeId,
             capPush 100 rd.comments (enrichComment c g t), rd.users⟩,
          st.chatMessages⟩,
         broadcast st (keyEpisode c.animeId c.episodeId)
           (SEvent.newComment (enrichComment c g t))) := by
  simp only [handleNewComment, h]

theorem handleNewComment_none (st : ServerState) (sid : String) (c : CommentIn)
    (g t : String)
    (h : mget st.episodeRooms (keyEpisode c.animeId c.episodeId) = none) :
    handleNewComment st sid c g t = (st, []) := by
  simp only [handleNewComment, h]

theorem handleCommentDeleted_some (st : ServerState) (sid cid a e : String)
    (rd : RoomData) (h : mget st.episodeRooms (keyEpisode a e) = some rd) :
    handleCommentDeleted st sid cid a e
      = (⟨st.sioRooms,
          mset st.episodeRooms (keyEpisode a e)
            ⟨rd.animeId, rd.episodeId,
             rd.comments.filter (fun c => decide (c.id ≠ some cid)), rd.users⟩,
          st.chatMessages⟩,
         broadcast st (keyEpisode a e) (SEvent.commentDeleted cid)) := by
  simp only [handleCommentDeleted, h]

theorem handleCommentDeleted_none (st : ServerState) (sid cid a e : String)
    (h : mget st.episodeRooms (keyEpisode a e) = none) :
    handleCommentDeleted st sid cid a e = (st, []) := by
  simp only [handleCommentDeleted, h]

theorem handleSendMessage_eq (st : ServerState) (sid : String) (m : ChatMsg)
    (g t : String) :
    handleSendMessage st sid m g t
      = (⟨st.sioRooms, st.episodeRooms,
          mset st.chatMessages (keyChat m.animeId m.episodeId)
            (capPush 100
              ((mget st.chatMessages (keyChat m.animeId m.episodeId)).getD [])
              (enrichChat m g t))⟩,
         broadcast st (keyChat m.animeId m.episodeId)
           (SEvent.newMessage (enrichChat m g t))) := by
  cases hm : mget st.chatMessages (keyChat m.animeId m.episodeId) with
  | none =>
      simp only [handleSendMessage, hm, Option.isNone_none, if_pos,
        mget_mset_self, Option.getD_some, Option.getD_none, mset_mset_same]
  | some l =>
      simp only [handleSendMessage, hm]
      simp [hm]

theorem handleJoinEpisode_none (st : ServerState) (sid a e : String)
    (h : mget (sioJoin st sid (keyEpisode a e)).episodeRooms (keyEpisode a e)
          = none) :
    handleJoinEpisode st sid a e
      = (⟨(sioJoin st sid (keyEpisode a e)).sioRooms,
          mset (sioJoin st sid (keyEpisode a e)).episodeRooms (keyEpisode a e)
            ⟨a, e, [], addMem sid []⟩,
          (sioJoin st sid (keyEpisode a e)).chatMessages⟩,
         [(sid, SEvent.commentsUpdated [])]) := by
  simp only [handleJoinEpisode, h]

theorem handleJoinEpisode_some (st : ServerState) (sid a e : String)
    (rd : RoomData)
    (h : mget (sioJoin st sid (keyEpisode a e)).episodeRooms (keyEpisode a e)
          = some rd) :
    handleJoinEpisode st sid a e
      = (⟨(sioJoin st sid (keyEpisode a e)).sioRooms,
          mset (sioJoin st sid (keyEpisode a e)).episodeRooms (keyEpisode a e)
            ⟨rd.animeId, rd.episodeId, rd.comments, addMem sid rd.users⟩,
          (sioJoin st sid (keyEpisode a e)).chatMessages⟩,
         [(sid, SEvent.commentsUpdated rd.comments)]) := by
  simp only [handleJoinEpisode, h]

/-! ### Episode-room lifecycle invariant -/

theorem goodRooms_disconnectRooms (sid : String)
    (m : List (String × RoomData)) (hg : GoodRooms m) :
    GoodRooms (disconnectRooms sid m) := by
  induction m with
  | nil => intro p hp; cases hp
  | cons q rest ih =>
      have hq := hg q (List.mem_cons_self _ _)
      have hrest : GoodRooms rest := fun p hp => hg p (List.mem_cons_of_mem _ hp)
      intro p hp
      unfold disconnectRooms at hp
      rw [List.filterMap_cons] at hp
      by_cases hmem : sid ∈ q.2.users
      · simp only [if_pos hmem] at hp
        by_cases hnil : delMem sid q.2.users = []
        · simp only [if_pos hnil] at hp
          exact ih hrest p hp
        · simp only [if_neg hnil, List.mem_cons] at hp
          rcases hp with hp | hp
          · subst hp; exact hnil
          · exact ih hrest p hp
      · simp only [if_neg hmem, List.mem_cons] at hp
        rcases hp with hp | hp
        · subst hp; exact hq
        · exact ih hrest p hp

theorem goodRooms_step (st : ServerState) (ev : CEvent)
    (hg : GoodRooms st.episodeRooms) : GoodRooms (step st ev).1.episodeRooms := by
  cases ev with
  | joinEpisode sid a e =>
      intro p hp
      simp only [step, handleJoinEpisode] at hp
      rcases mem_mset hp with hp | hp
      · exact hg p hp
      · subst hp
        exact addMem_ne_nil sid _
  | newComment sid c g t =>
      intro p hp
      simp only [step, handleNewComment] at hp
      cases hm : mget st.episodeRooms (keyEpisode c.animeId c.episodeId) with
      | none => rw [hm] at hp; exact hg p hp
      | some rd =>
          rw [hm] at hp
          simp only [] at hp
          rcases mem_mset hp with hp | hp
          · exact hg p hp
          · subst hp
            have h2 : rd.users ≠ [] := hg (keyEpisode c.animeId c.episodeId, rd) (mget_mem hm)
            exact h2
  | commentDeleted sid cid a e =>
      intro p hp
      simp only [step, handleCommentDeleted] at hp
      cases hm : mget st.episodeRooms (keyEpisode a e) with
      | none => rw [hm] at hp; exact hg p hp
      | some rd =>
          rw [hm] at hp
          simp only [] at hp
          rcases mem_mset hp with hp | hp
          · exact hg p hp
          · subst hp
            have h2 : rd.users ≠ [] := hg (keyEpisode a e, rd) (mget_mem hm)
            exact h2
  | joinChat sid a e =>
      intro p hp
      simp only [step, handleJoinChat] at hp
      by_cases hm : (mget (sioJoin st sid (keyChat a e)).chatMessages (keyChat a e)).isNone
      · simp only [if_pos hm] at hp
        exact hg p hp
      · simp only [if_neg hm] at hp
        exact hg p hp
  | sendMessage sid msg g t =>
      intro p hp
      rw [show (step st (CEvent.sendMessage sid msg g t)).1
            = (handleSendMessage st sid msg g t).1 from rfl,
        handleSendMessage_eq] at hp
      exact hg p hp
  | getChatHistory sid a e =>
      intro p hp
      simp only [step, handleGetChatHistory] at hp
      exact hg p hp
  | leaveEpisode sid a e =>
      intro p hp
      simp only [step, handleLeaveEpisode] at hp
      cases hm : mget (sioLeave st sid (keyEpisode a e)).episodeRooms (keyEpisode a e) with
      | none =>
          rw [hm] at hp
          simp only [sioLeave] at hp ⊢
          cases hsio : mget st.sioRooms (keyEpisode a e) with
          | none => rw [hsio] at hp; exact hg p hp
          | some l => rw [hsio] at hp; exact hg p hp
      | some rd =>
          rw [hm] at hp
          have hrest : GoodRooms (sioLeave st sid (keyEpisode a e)).episodeRooms := by
            simp only [sioLeave]
            cases hsio : mget st.sioRooms (keyEpisode a e) with
            | none => exact hg
            | some l => exact hg
          by_cases hnil : delMem sid rd.users = []
          · simp only [if_pos hnil] at hp
            exact hrest p (mem_mdel hp)
          · simp only [if_neg hnil] at hp
            rcases mem_mset hp with hp | hp
            · exact hrest p hp
            · subst hp
              exact hnil
  | leaveChat sid a e =>
      intro p hp
      simp only [step, handleLeaveChat, sioLeave] at hp
      cases hsio : mget st.sioRooms (keyChat a e) with
      | none => rw [hsio] at hp; exact hg p hp
      | some l => rw [hsio] at hp; exact hg p hp
  | disconnect sid =>
      intro p hp
      simp only [step, handleDisconnect, sioLeaveAll] at hp
      exact goodRooms_disconnectRooms sid st.episodeRooms hg p hp

theorem goodRooms_run (evs : List CEvent) :
    ∀ (st : ServerState), GoodRooms st.episodeRooms →
      GoodRooms (run st evs).episodeRooms := by
  induction evs with
  | nil => intro st hg; exact hg
  | cons ev evs ih =>
      intro st hg
      exact ih (step st ev).1 (goodRooms_step st ev hg)

theorem mget_disconnectRooms_none (sid : String) :
    ∀ (m : List (String × RoomData)) (k : String), mget m k = none →
      mget (disconnectRooms sid m) k = none
  | [], k, _ => rfl
  | q :: rest, k, h => by
      have hq : ¬ q.1 = k := by
        intro hh
        simp only [mget, if_pos hh] at h
        cases h
      simp only [mget, if_neg hq] at h
      unfold disconnectRooms
      rw [List.filterMap_cons]
      have hrest := mget_disconnectRooms_none sid rest k h
      by_cases hmem : sid ∈ q.2.users
      · simp only [if_pos hmem]
        by_cases hnil : delMem sid q.2.users = []
        · simp only [if_pos hnil]
          exact hrest
        · simp only [if_neg hnil, mget, if_neg hq]
          exact hrest
      · simp only [if_neg hmem, mget, if_neg hq]
        exact hrest

theorem mget_disconnectRooms_del (sid : String) :
    ∀ (m : List (String × RoomData)) (k : String) (rd : RoomData),
      keysNodup m → mget m k = some rd → sid ∈ rd.users →
      delMem sid rd.users = [] →
      mget (disconnectRooms sid m) k = none
  | [], k, rd, _, h, _, _ => by cases h
  | q :: rest, k, rd, hnd, h, hmem, hnil => by
      have hnd' : q.1 ∉ rest.map Prod.fst ∧ keysNodup rest := by
        simpa [keysNodup, List.nodup_cons] using hnd
      unfold disconnectRooms
      rw [List.filterMap_cons]
      by_cases hq : q.1 = k
      · have hrd : q.2 = rd := by
          simpa [mget, if_pos hq] using h
        rw [hrd]
        simp only [if_pos hmem, if_pos hnil]
        exact mget_disconnectRooms_none sid rest k
          (hq ▸ mget_eq_none_of_not_mem_keys hnd'.1)
      · simp only [mget, if_neg hq] at h
        have hrest := mget_disconnectRooms_del sid rest k rd hnd'.2 h hmem hnil
        by_cases hmemq : sid ∈ q.2.users
        · simp only [if_pos hmemq]
          by_cases hnilq : delMem sid q.2.users = []
          · simp only [if_pos hnilq]
            exact hrest
          · simp only [if_neg hnilq, mget, if_neg hq]
            exact hrest
        · simp only [if_neg hmemq, mget, if_neg hq]
          exact hrest

/-! ### The repeated-post scenario -/

theorem distinctBody_injective : Function.Injective distinctBody := by
  intro i j h
  have h2 : List.replicate i 'x' = List.replicate j 'x' := congrArg String.data h
  have h3 := congrArg List.length h2
  simpa using h3

theorem scStored_eq (i : Nat) :
    scStored i = ⟨"42", "3", some "g", some "t", distinctBody i, "u1", "Ann"⟩ :=
  rfl

theorem scStored_injective : Function.Injective scStored := by
  intro i j h
  rw [scStored_eq, scStored_eq] at h
  exact distinctBody_injective (congrArg CommentIn.body h)

theorem scComment_animeId (i : Nat) : (scComment i).animeId = "42" := rfl

theorem scComment_episodeId (i : Nat) : (scComment i).episodeId = "3" := rfl

theorem scenario_room (n : Nat) :
    mget (scenarioState n).episodeRooms (keyEpisode "42" "3")
      = some ⟨"42", "3",
          List.foldl (capPush 100) [] ((List.range n).map scStored), ["A"]⟩ := by
  induction n with
  | zero => decide
  | succ n ih =>
      have hev : scenarioState (n + 1)
          = (handleNewComment (scenarioState n) "A" (scComment n) "g" "t").1 := by
        show run initState
            (CEvent.joinEpisode "A" "42" "3" :: scEvents (n + 1)) = _
        rw [show scEvents (n + 1)
              = scEvents n ++ [CEvent.newComment "A" (scComment n) "g" "t"] by
            unfold scEvents
            rw [List.range_succ, List.map_append]
            rfl]
        show run initState
            ((CEvent.joinEpisode "A" "42" "3" :: scEvents n)
              ++ [CEvent.newComment "A" (scComment n) "g" "t"]) = _
        unfold run
        rw [List.foldl_append]
        rfl
      have ih' : mget (scenarioState n).episodeRooms
          (keyEpisode (scComment n).animeId (scComment n).episodeId)
          = some ⟨"42", "3",
              List.foldl (capPush 100) [] ((List.range n).map scStored), ["A"]⟩ := ih
      rw [hev, handleNewComment_some (scenarioState n) "A" (scComment n) "g" "t" _ ih']
      simp only [scComment_animeId, scComment_episodeId]
      rw [mget_mset_self]
      simp only [List.range_succ, List.map_append, List.foldl_append,
        List.foldl_cons, List.foldl_nil]
      rfl

/-! ### Small projection lemmas -/

theorem sioLeave_episodeRooms (st : ServerState) (sid room : String) :
    (sioLeave st sid room).episodeRooms = st.episodeRooms := by
  unfold sioLeave
  cases mget st.sioRooms room <;> rfl

theorem sioLeave_chatMessages (st : ServerState) (sid room : String) :
    (sioLeave st sid room).chatMessages = st.chatMessages := by
  unfold sioLeave
  cases mget st.sioRooms room <;> rfl

theorem mem_capPush_self {α : Type} (cap : Nat) (hcap : 0 < cap)
    (l : List α) (x : α) : x ∈ capPush cap l x := by
  rw [capPush_eq_drop]
  have h0 : (l ++ [x]).length - cap - l.length = 0 := by
    simp only [List.length_append, List.length_cons, List.length_nil]
    omega
  rw [List.drop_append_eq_append_drop, h0, List.drop_zero]
  exact List.mem_append_right _ (List.mem_singleton.mpr rfl)

/-! ## Claims -/

/-- C2: Sliding-window cap preserves recency and order.  For every room
(the code uses `capPush` with cap 100 for both comment and chat rooms),
appending N entries with N exceeding the cap C leaves exactly the most
recent C entries in their original relative order (the prefix is evicted
from the front); moreover each handler updates its room's sequence by
exactly this `capPush` step. -/
theorem C2_sliding_window :
    (∀ (α : Type) (cap : Nat) (xs : List α), cap < xs.length →
      List.foldl (capPush cap) [] xs = xs.drop (xs.length - cap)
      ∧ (List.foldl (capPush cap) [] xs).length = cap)
    ∧ (∀ (st : ServerState) (sid : String) (c : CommentIn) (g t : String)
        (rd : RoomData),
        mget st.episodeRooms (keyEpisode c.animeId c.episodeId) = some rd →
        mget (handleNewComment st sid c g t).1.episodeRooms
            (keyEpisode c.animeId c.episodeId)
          = some ⟨rd.animeId, rd.episodeId,
              capPush 100 rd.comments (enrichComment c g t), rd.users⟩)
    ∧ (∀ (st : ServerState) (sid : String) (m : ChatMsg) (g t : String),
        mget (handleSendMessage st sid m g t).1.chatMessages
            (keyChat m.animeId m.episodeId)
          = some (capPush 100
              ((mget st.chatMessages (keyChat m.animeId m.episodeId)).getD [])
              (enrichChat m g t))) := by
  refine ⟨?_, ?_, ?_⟩
  · intro α cap xs hlen
    have hfold := foldl_capPush cap xs [] (by simp)
    rw [List.nil_append] at hfold
    refine ⟨hfold, ?_⟩
    rw [hfold, List.length_drop]
    omega
  · intro st sid c g t rd h
    rw [handleNewComment_some st sid c g t rd h]
    exact mget_mset_self _ _ _
  · intro st sid m g t
    rw [handleSendMessage_eq st sid m g t]
    exact mget_mset_self _ _ _

/-- Witness for C2 at concrete inputs: three appends at cap 2 keep the
last two entries, and a concrete comment append stores via `capPush`. -/
theorem C2_sliding_window_witness :
    List.foldl (capPush 2) ([] : List Nat) [7, 8, 9] = [8, 9]
    ∧ mget (handleNewComment c3state "A" c3comment "g1" "t1").1.episodeRooms
        (keyEpisode "42" "3")
      = some ⟨"42", "3", [enrichComment c3comment "g1" "t1"], ["A"]⟩ := by
  constructor
  · have h := (C2_sliding_window.1 Nat 2 [7, 8, 9] (by decide)).1
    simpa using h
  · have h := C2_sliding_window.2.1 c3state "A" c3comment "g1" "t1"
      ⟨"42", "3", [], ["A"]⟩ (by decide)
    simpa [capPush] using h

/-- C7 counterexample: in the code the comments cap is 100, not 200 —
after 201 comment posts to room `(42, 3)` the stored sequence has length
100, so `list` does not return 200 entries. -/
theorem C7_counterexample :
    ((mget (scenarioState 201).episodeRooms (keyEpisode "42" "3")).map
      (fun rd => rd.comments.length)) = some 100
    ∧ ((mget (scenarioState 201).episodeRooms (keyEpisode "42" "3")).map
      (fun rd => rd.comments.length)) ≠ some 200 := by
  have h := scenario_room 201
  have hlen : (List.foldl (capPush 100) []
      ((List.range 201).map scStored)).length = 100 := by
    rw [foldl_capPush 100 _ [] (by simp), List.nil_append, List.length_drop]
    simp
  rw [h]
  constructor
  · simp [hlen]
  · simp [hlen]

/-- C7 corrected: the comments cap is 100 (identical to the chat cap),
not 200: after 201 posts the room stores exactly the last 100 entries in
insertion order, and the earliest-posted entry is absent. -/
theorem C7_cap_is_100 :
    mget (scenarioState 201).episodeRooms (keyEpisode "42" "3")
      = some ⟨"42", "3", ((List.range 201).map scStored).drop 101, ["A"]⟩
    ∧ (((List.range 201).map scStored).drop 101).length = 100
    ∧ scStored 0 ∉ ((List.range 201).map scStored).drop 101 := by
  refine ⟨?_, ?_, ?_⟩
  · rw [scenario_room 201, foldl_capPush 100 _ [] (by simp), List.nil_append]
    have hlen : ((List.range 201).map scStored).length = 201 := by simp
    rw [hlen]
  · simp
  · have hnd : ((List.range 201).map scStored).Nodup :=
      List.Nodup.map scStored_injective (List.nodup_range 201)
    have htake : scStored 0 ∈ ((List.range 201).map scStored).take 101 := by
      rw [← List.map_take, List.take_range]
      exact List.mem_map_of_mem scStored (List.mem_range.mpr (by norm_num))
    intro hdrop
    exact List.disjoint_take_drop hnd (le_refl 101) htake hdrop

/-- C1 counterexample: with sessions A, B, C all joined to the comments
room of `(42, 3)`, session A's own `new_comment` is delivered back to A
(`io.to(room)` includes the sender), so the submitting session receives
one broadcast event, not zero. -/
theorem C1_counterexample :
    deliveredTo "A" ((step c1state (CEvent.newComment "A" c1comment "gid" "t0")).2)
      = [SEvent.newComment (enrichComment c1comment "gid" "t0")]
    ∧ deliveredTo "A" ((step c1state (CEvent.newComment "A" c1comment "gid" "t0")).2)
      ≠ [] := by
  exact ⟨by decide, by decide⟩

/-- C1 corrected: both room types broadcast to every socket.io member of
the room INCLUDING the sender: every joined session (the submitter too)
receives exactly one `new_comment` event carrying the stored entry when a
comment is submitted to an existing room, and exactly one `new_message`
event carrying the stored entry when a chat message is sent. -/
theorem C1_fanout_echoes_sender :
    (∀ (st : ServerState) (sid sid' : String) (c : CommentIn) (g t : String)
       (rd : RoomData),
       mget st.episodeRooms (keyEpisode c.animeId c.episodeId) = some rd →
       (sioMembers st (keyEpisode c.animeId c.episodeId)).Nodup →
       sid' ∈ sioMembers st (keyEpisode c.animeId c.episodeId) →
       deliveredTo sid' (handleNewComment st sid c g t).2
         = [SEvent.newComment (enrichComment c g t)])
    ∧ (∀ (st : ServerState) (sid sid' : String) (m : ChatMsg) (g t : String),
       (sioMembers st (keyChat m.animeId m.episodeId)).Nodup →
       sid' ∈ sioMembers st (keyChat m.animeId m.episodeId) →
       deliveredTo sid' (handleSendMessage st sid m g t).2
         = [SEvent.newMessage (enrichChat m g t)]) := by
  constructor
  · intro st sid sid' c g t rd h hnd hmem
    rw [handleNewComment_some st sid c g t rd h]
    exact deliveredTo_broadcast st _ _ sid' hnd hmem
  · intro st sid sid' m g t hnd hmem
    rw [handleSendMessage_eq st sid m g t]
    exact deliveredTo_broadcast st _ _ sid' hnd hmem

/-- Witness for C1: in the concrete three-member room, the sender A and
the other session B each receive exactly one `new_comment` event. -/
theorem C1_fanout_echoes_sender_witness :
    deliveredTo "A" (handleNewComment c1state "A" c1comment "gid" "t0").2
      = [SEvent.newComment (enrichComment c1comment "gid" "t0")]
    ∧ deliveredTo "B" (handleNewComment c1state "A" c1comment "gid" "t0").2
      = [SEvent.newComment (enrichComment c1comment "gid" "t0")] := by
  constructor
  · exact C1_fanout_echoes_sender.1 c1state "A" "A" c1comment "gid" "t0"
      ⟨"42", "3", [], ["A", "B", "C"]⟩ (by decide) (by decide) (by decide)
  · exact C1_fanout_echoes_sender.1 c1state "A" "B" c1comment "gid" "t0"
      ⟨"42", "3", [], ["A", "B", "C"]⟩ (by decide) (by decide) (by decide)

/-- C3 counterexample: a comment whose body is empty (hence empty after
trimming) submitted to an existing room is stored, appears in the room's
sequence, and is broadcast; no error event of any kind is emitted. -/
theorem C3_counterexample :
    c3comment.body = ""
    ∧ mget (step c3state (CEvent.newComment "A" c3comment "g1" "t1")).1.episodeRooms
        (keyEpisode "42" "3")
      = some ⟨"42", "3", [⟨"42", "3", some "g1", some "t1", "", "u1", "Ann"⟩], ["A"]⟩
    ∧ (step c3state (CEvent.newComment "A" c3comment "g1" "t1")).2
      = [("A", SEvent.newComment ⟨"42", "3", some "g1", some "t1", "", "u1", "Ann"⟩)] := by
  exact ⟨by decide, by decide, by decide⟩

/-- C3 corrected: the handler performs no body validation at all: a
comment whose body is empty or whitespace-only after trimming is, when
its room exists, appended (via `capPush`), appears in the stored
sequence, and no error event is ever emitted to the caller. -/
theorem C3_no_body_validation :
    ∀ (st : ServerState) (sid : String) (c : CommentIn) (g t : String)
      (rd : RoomData),
      (c.body = "" ∨ c.body.trim = "") →
      mget st.episodeRooms (keyEpisode c.animeId c.episodeId) = some rd →
      mget (handleNewComment st sid c g t).1.episodeRooms
          (keyEpisode c.animeId c.episodeId)
        = some ⟨rd.animeId, rd.episodeId,
            capPush 100 rd.comments (enrichComment c g t), rd.users⟩
      ∧ enrichComment c g t ∈ capPush 100 rd.comments (enrichComment c g t)
      ∧ (∀ p ∈ (handleNewComment st sid c g t).2, ∀ s, p.2 ≠ SEvent.errorMsg s) := by
  intro st sid c g t rd _hbody h
  refine ⟨?_, ?_, ?_⟩
  · rw [handleNewComment_some st sid c g t rd h]
    exact mget_mset_self _ _ _
  · exact mem_capPush_self 100 (by norm_num) _ _
  · intro p hp s
    rw [handleNewComment_some st sid c g t rd h] at hp
    simp only [broadcast, List.mem_map] at hp
    obtain ⟨u, _, hu⟩ := hp
    rw [← hu]
    intro hcontra
    cases hcontra

/-- Witness for C3: the empty-body comment is stored in the concrete
one-member room and only the `new_comment` broadcast is emitted. -/
theorem C3_no_body_validation_witness :
    mget (handleNewComment c3state "A" c3comment "g1" "t1").1.episodeRooms
        (keyEpisode "42" "3")
      = some ⟨"42", "3", capPush 100 [] (enrichComment c3comment "g1" "t1"), ["A"]⟩
    ∧ enrichComment c3comment "g1" "t1"
        ∈ capPush 100 [] (enrichComment c3comment "g1" "t1") := by
  have h := C3_no_body_validation c3state "A" c3comment "g1" "t1"
    ⟨"42", "3", [], ["A"]⟩ (Or.inl rfl) (by decide)
  exact ⟨h.1, h.2.1⟩

/-- C4 counterexample: session B — whose delete request carries no author
identity at all and asserts no admin right — successfully deletes the
comment authored by `userA`: the room's sequence shrinks from one entry
to none and no Forbidden/error event is produced. -/
theorem C4_counterexample :
    mget (run initState c4events).episodeRooms (keyEpisode "42" "3")
      = some ⟨"42", "3", [], ["A", "B"]⟩
    ∧ c4comment.authorId = "userA"
    ∧ (step (run initState (c4events.take 3)) (CEvent.commentDeleted "B" "cid1" "42" "3")).2
      = [("A", SEvent.commentDeleted "cid1"), ("B", SEvent.commentDeleted "cid1")] := by
  exact ⟨by decide, by decide, by decide⟩

/-- C4 corrected: the `comment_deleted` handler enforces no authorization
whatsoever: its result is independent of the requesting session, every
stored entry whose id matches is removed regardless of author or admin
status, and no Forbidden (or any error) event is emitted. -/
theorem C4_no_authorization :
    (∀ (st : ServerState) (sid sid' cid a e : String),
       handleCommentDeleted st sid cid a e = handleCommentDeleted st sid' cid a e)
    ∧ (∀ (st : ServerState) (sid cid a e : String) (rd : RoomData),
       mget st.episodeRooms (keyEpisode a e) = some rd →
       ∀ c ∈ rd.comments, c.id = some cid →
       ∀ rd', mget (handleCommentDeleted st sid cid a e).1.episodeRooms
           (keyEpisode a e) = some rd' →
       c ∉ rd'.comments)
    ∧ (∀ (st : ServerState) (sid cid a e : String),
       ∀ p ∈ (handleCommentDeleted st sid cid a e).2, ∀ s, p.2 ≠ SEvent.errorMsg s) := by
  refine ⟨?_, ?_, ?_⟩
  · intro st sid sid' cid a e
    rfl
  · intro st sid cid a e rd h c hc hid rd' h'
    rw [handleCommentDeleted_some st sid cid a e rd h, mget_mset_self] at h'
    cases h'
    intro hmem
    have := (List.mem_filter.mp hmem).2
    rw [decide_eq_true_eq] at this
    exact this hid
  · intro st sid cid a e p hp s
    cases hm : mget st.episodeRooms (keyEpisode a e) with
    | none =>
        rw [handleCommentDeleted_none st sid cid a e hm] at hp
        cases hp
    | some rd =>
        rw [handleCommentDeleted_some st sid cid a e rd hm] at hp
        simp only [broadcast, List.mem_map] at hp
        obtain ⟨u, _, hu⟩ := hp
        rw [← hu]
        intro hcontra
        cases hcontra

/-- Witness for C4: in the concrete two-member room, deleting `userA`'s
comment on behalf of an unrelated session removes it. -/
theorem C4_no_authorization_witness :
    c4comment ∉ ([] : List CommentIn)
    ∧ handleCommentDeleted c3state "A" "zzz" "42" "3"
      = handleCommentDeleted c3state "B" "zzz" "42" "3" := by
  constructor
  · exact C4_no_authorization.2.1 (run initState (c4events.take 3)) "B" "cid1"
      "42" "3" ⟨"42", "3", [c4comment], ["A", "B"]⟩ (by decide) c4comment
      (by decide) (by decide) ⟨"42", "3", [], ["A", "B"]⟩ (by decide)
  · exact C4_no_authorization.1 c3state "A" "B" "zzz" "42" "3"

/-- C5 counterexample: with two stored entries sharing the
client-supplied id `d` (plus one entry with id `k`), deleting id `d`
removes BOTH matching entries, not exactly the first one: only the id-`k`
entry remains, and the second id-`d` entry is gone as well. -/
theorem C5_counterexample :
    mget (run initState c5events).episodeRooms (keyEpisode "42" "3")
      = some ⟨"42", "3", [c5other], ["A"]⟩
    ∧ c5dup2 ∉ [c5other]
    ∧ (step (run initState (c5events.take 4)) (CEvent.commentDeleted "A" "absent" "42" "3")).2
      = [("A", SEvent.commentDeleted "absent")] := by
  exact ⟨by decide, by decide, by decide⟩

/-- C5 corrected: deletion removes EVERY entry whose id matches (the
handler filters the whole sequence), not exactly the first match; when
no entry matches, the sequence is unchanged but the server still
broadcasts `comment_deleted` and reports no NotFound to the caller; a
delete addressed to an absent room is a silent no-op emitting nothing. -/
theorem C5_delete_semantics :
    (∀ (st : ServerState) (sid cid a e : String) (rd : RoomData),
       mget st.episodeRooms (keyEpisode a e) = some rd →
       mget (handleCommentDeleted st sid cid a e).1.episodeRooms (keyEpisode a e)
         = some ⟨rd.animeId, rd.episodeId,
             rd.comments.filter (fun c => decide (c.id ≠ some cid)), rd.users⟩
       ∧ (handleCommentDeleted st sid cid a e).2
         = broadcast st (keyEpisode a e) (SEvent.commentDeleted cid))
    ∧ (∀ (st : ServerState) (sid cid a e : String) (rd : RoomData),
       mget st.episodeRooms (keyEpisode a e) = some rd →
       (∀ c ∈ rd.comments, c.id ≠ some cid) →
       mget (handleCommentDeleted st sid cid a e).1.episodeRooms (keyEpisode a e)
         = some rd)
    ∧ (∀ (st : ServerState) (sid cid a e : String),
       mget st.episodeRooms (keyEpisode a e) = none →
       handleCommentDeleted st sid cid a e = (st, [])) := by
  refine ⟨?_, ?_, ?_⟩
  · intro st sid cid a e rd h
    rw [handleCommentDeleted_some st sid cid a e rd h]
    exact ⟨mget_mset_self _ _ _, rfl⟩
  · intro st sid cid a e rd h hnone
    rw [handleCommentDeleted_some st sid cid a e rd h, mget_mset_self]
    have hfil : rd.comments.filter (fun c => decide (c.id ≠ some cid))
        = rd.comments := by
      rw [List.filter_eq_self]
      intro c hc
      rw [decide_eq_true_eq]
      exact hnone c hc
    rw [hfil]
  · intro st sid cid a e h
    exact handleCommentDeleted_none st sid cid a e h

/-- Witness for C5: deleting id `d` from the concrete room filters both
matching entries out; deleting from the never-created room `(9, 9)` of
the initial state is a silent no-op. -/
theorem C5_delete_semantics_witness :
    mget (handleCommentDeleted (run initState (c5events.take 4)) "A" "d" "42" "3").1.episodeRooms
        (keyEpisode "42" "3")
      = some ⟨"42", "3",
          [c5dup, c5dup2, c5other].filter (fun c => decide (c.id ≠ some "d")), ["A"]⟩
    ∧ handleCommentDeleted initState "A" "d" "9" "9" = (initState, []) := by
  constructor
  · exact (C5_delete_semantics.1 (run initState (c5events.take 4)) "A" "d" "42" "3"
      ⟨"42", "3", [c5dup, c5dup2, c5other], ["A"]⟩ (by decide)).1
  · exact C5_delete_semantics.2.2 initState "A" "d" "9" "9" (by decide)

/-- C6 counterexample: a comment written to a room that no session has
ever joined is silently dropped: the room is NOT created lazily, nothing
is stored anywhere, and nothing is emitted — the state is unchanged. -/
theorem C6_counterexample :
    step initState (CEvent.newComment "A" c6comment "g" "t") = (initState, [])
    ∧ mget (step initState (CEvent.newComment "A" c6comment "g" "t")).1.episodeRooms
        (keyEpisode "42" "3") = none := by
  exact ⟨by decide, by decide⟩

/-- C6 corrected: only chat appends are total and lazily create their
room; a comment append succeeds only when its episode room already
exists (episode rooms are created by `join_episode` alone), and a
comment to an absent room is silently dropped with no store change and
no emissions. -/
theorem C6_append_totality :
    (∀ (st : ServerState) (sid : String) (m : ChatMsg) (g t : String),
       mget (handleSendMessage st sid m g t).1.chatMessages
           (keyChat m.animeId m.episodeId)
         = some (capPush 100
             ((mget st.chatMessages (keyChat m.animeId m.episodeId)).getD [])
             (enrichChat m g t)))
    ∧ (∀ (st : ServerState) (sid : String) (c : CommentIn) (g t : String),
       mget st.episodeRooms (keyEpisode c.animeId c.episodeId) = none →
       handleNewComment st sid c g t = (st, []))
    ∧ (∀ (st : ServerState) (sid : String) (c : CommentIn) (g t : String)
        (rd : RoomData),
       mget st.episodeRooms (keyEpisode c.animeId c.episodeId) = some rd →
       mget (handleNewComment st sid c g t).1.episodeRooms
           (keyEpisode c.animeId c.episodeId)
         = some ⟨rd.animeId, rd.episodeId,
             capPush 100 rd.comments (enrichComment c g t), rd.users⟩)
    ∧ (∀ (st : ServerState) (sid a e : String),
       mget (sioJoin st sid (keyEpisode a e)).episodeRooms (keyEpisode a e) = none →
       mget (handleJoinEpisode st sid a e).1.episodeRooms (keyEpisode a e)
         = some ⟨a, e, [], [sid]⟩) := by
  refine ⟨?_, ?_, ?_, ?_⟩
  · intro st sid m g t
    rw [handleSendMessage_eq st sid m g t]
    exact mget_mset_self _ _ _
  · intro st sid c g t h
    exact handleNewComment_none st sid c g t h
  · intro st sid c g t rd h
    rw [handleNewComment_some st sid c g t rd h]
    exact mget_mset_self _ _ _
  · intro st sid a e h
    rw [handleJoinEpisode_none st sid a e h, mget_mset_self]
    rfl

/-- Witness for C6: a chat message to the never-joined chat room `(42, 3)`
of the initial state is stored (room lazily created); the comment to the
absent episode room is dropped; joining creates the episode room. -/
theorem C6_append_totality_witness :
    mget (handleSendMessage initState "A" c8msg "gen" "now").1.chatMessages
        (keyChat "42" "3")
      = some (capPush 100 [] (enrichChat c8msg "gen" "now"))
    ∧ handleNewComment initState "A" c6comment "g" "t" = (initState, [])
    ∧ mget (handleJoinEpisode initState "B" "7" "1").1.episodeRooms
        (keyEpisode "7" "1") = some ⟨"7", "1", [], ["B"]⟩ := by
  refine ⟨?_, ?_, ?_⟩
  · exact C6_append_totality.1 initState "A" c8msg "gen" "now"
  · exact C6_append_totality.2.1 initState "A" c6comment "g" "t" (by decide)
  · exact C6_append_totality.2.2.2 initState "B" "7" "1" (by decide)

theorem enrichComment_id (c : CommentIn) (g t : String) :
    (enrichComment c g t).id = if falsy c.id then some g else c.id := by
  unfold enrichComment
  by_cases h2 : falsy c.id = true <;> by_cases h3 : falsy c.createdAt = true <;>
    simp [h2, h3]

theorem enrichComment_createdAt (c : CommentIn) (g t : String) :
    (enrichComment c g t).createdAt
      = if falsy c.createdAt then some t else c.createdAt := by
  unfold enrichComment
  by_cases h2 : falsy c.id = true <;> by_cases h3 : falsy c.createdAt = true <;>
    simp [h2, h3]

/-- C8 counterexample: a chat message that already carries the id `myid`
is stored with a freshly generated id (`gen`) instead — the
client-supplied chat id is NOT stored unchanged. -/
theorem C8_counterexample :
    c8msg.id = some "myid"
    ∧ mget (run initState [CEvent.sendMessage "A" c8msg "gen" "now"]).chatMessages
        (keyChat "42" "3")
      = some [⟨"42", "3", some "hi", none, some "gen", some "ts", "u1"⟩]
    ∧ (some "gen" : Option String) ≠ some "myid" := by
  exact ⟨by decide, by decide, by decide⟩

/-- C8 corrected: for comments, id and `createdAt` are preserved whenever
present (and non-empty — the JS truthiness test treats `""` as absent)
and generated only when missing; for chat messages the timestamp is
preserved when present, but the id is ALWAYS replaced by a freshly
generated one, even when the request carries an id. -/
theorem C8_id_timestamp_assignment :
    (∀ (c : CommentIn) (g t s : String), c.id = some s → s ≠ "" →
        (enrichComment c g t).id = some s)
    ∧ (∀ (c : CommentIn) (g t : String), c.id = none →
        (enrichComment c g t).id = some g)
    ∧ (∀ (c : CommentIn) (g t s : String), c.createdAt = some s → s ≠ "" →
        (enrichComment c g t).createdAt = some s)
    ∧ (∀ (c : CommentIn) (g t : String), c.createdAt = none →
        (enrichComment c g t).createdAt = some t)
    ∧ (∀ (m : ChatMsg) (g t : String), (enrichChat m g t).id = some g)
    ∧ (∀ (m : ChatMsg) (g t s : String), m.timestamp = some s → s ≠ "" →
        (enrichChat m g t).timestamp = some s)
    ∧ (∀ (m : ChatMsg) (g t : String), m.timestamp = none →
        (enrichChat m g t).timestamp = some t) := by
  refine ⟨?_, ?_, ?_, ?_, ?_, ?_, ?_⟩
  · intro c g t s hid hs
    have hf : falsy c.id = false := by simp [falsy, hid, hs]
    rw [enrichComment_id, hf]
    simp [hid]
  · intro c g t hid
    have hf : falsy c.id = true := by simp [falsy, hid]
    rw [enrichComment_id, hf]
    simp
  · intro c g t s hca hs
    have hf : falsy c.createdAt = false := by simp [falsy, hca, hs]
    rw [enrichComment_createdAt, hf]
    simp [hca]
  · intro c g t hca
    have hf : falsy c.createdAt = true := by simp [falsy, hca]
    rw [enrichComment_createdAt, hf]
    simp
  · intro m g t
    rfl
  · intro m g t s hts hs
    have hf : falsy m.timestamp = false := by simp [falsy, hts, hs]
    simp [enrichChat, hf, hts, falsy, hs]
  · intro m g t hts
    have hf : falsy m.timestamp = true := by simp [falsy, hts]
    simp [enrichChat, hf]

/-- Witness for C8 at concrete entries: a comment id/timestamp carried in
the request survives, missing ones are generated, and a chat id is
overwritten while its timestamp survives. -/
theorem C8_id_timestamp_assignment_witness :
    (enrichComment c4comment "g" "t").id = some "cid1"
    ∧ (enrichComment c3comment "g1" "t1").id = some "g1"
    ∧ (enrichComment c4comment "g" "t").createdAt = some "t1"
    ∧ (enrichComment c3comment "g1" "t1").createdAt = some "t1"
    ∧ (enrichChat c8msg "gen" "now").id = some "gen"
    ∧ (enrichChat c8msg "gen" "now").timestamp = some "ts" := by
  refine ⟨?_, ?_, ?_, ?_, ?_, ?_⟩
  · exact C8_id_timestamp_assignment.1 c4comment "g" "t" "cid1" rfl (by decide)
  · exact C8_id_timestamp_assignment.2.1 c3comment "g1" "t1" rfl
  · exact C8_id_timestamp_assignment.2.2.1 c4comment "g" "t" "t1" rfl (by decide)
  · exact C8_id_timestamp_assignment.2.2.2.1 c3comment "g1" "t1" rfl
  · exact C8_id_timestamp_assignment.2.2.2.2.1 c8msg "gen" "now"
  · exact C8_id_timestamp_assignment.2.2.2.2.2.1 c8msg "gen" "now" "ts" rfl (by decide)

theorem handleLeaveEpisode_chatMessages (st : ServerState) (sid a e : String) :
    (handleLeaveEpisode st sid a e).1.chatMessages = st.chatMessages := by
  cases hm : mget (sioLeave st sid (keyEpisode a e)).episodeRooms (keyEpisode a e) with
  | none =>
      simp only [handleLeaveEpisode, hm]
      exact sioLeave_chatMessages st sid _
  | some rd =>
      simp only [handleLeaveEpisode, hm]
      by_cases hnil : delMem sid rd.users = []
      · rw [if_pos hnil]
        exact sioLeave_chatMessages st sid _
      · rw [if_neg hnil]
        exact sioLeave_chatMessages st sid _

theorem handleLeaveEpisode_episodeRooms (st : ServerState) (sid a e : String) :
    (handleLeaveEpisode st sid a e).1.episodeRooms
      = (match mget st.episodeRooms (keyEpisode a e) with
         | some rd =>
             if delMem sid rd.users = []
             then mdel st.episodeRooms (keyEpisode a e)
             else mset st.episodeRooms (keyEpisode a e)
               ⟨rd.animeId, rd.episodeId, rd.comments, delMem sid rd.users⟩
         | none => st.episodeRooms) := by
  cases hm : mget st.episodeRooms (keyEpisode a e) with
  | none =>
      have hm' : mget (sioLeave st sid (keyEpisode a e)).episodeRooms
          (keyEpisode a e) = none := by rw [sioLeave_episodeRooms]; exact hm
      simp only [handleLeaveEpisode, hm']
      exact sioLeave_episodeRooms st sid _
  | some rd =>
      have hm' : mget (sioLeave st sid (keyEpisode a e)).episodeRooms
          (keyEpisode a e) = some rd := by rw [sioLeave_episodeRooms]; exact hm
      simp only [handleLeaveEpisode, hm']
      by_cases hnil : delMem sid rd.users = []
      · rw [if_pos hnil, if_pos hnil, sioLeave_episodeRooms]
      · rw [if_neg hnil, if_neg hnil, sioLeave_episodeRooms]

theorem handleLeaveEpisode_out (st : ServerState) (sid a e : String) :
    (handleLeaveEpisode st sid a e).2 = [] := by
  cases hm : mget (sioLeave st sid (keyEpisode a e)).episodeRooms (keyEpisode a e) with
  | none => simp only [handleLeaveEpisode, hm]
  | some rd =>
      simp only [handleLeaveEpisode, hm]
      by_cases hnil : delMem sid rd.users = []
      · rw [if_pos hnil]
      · rw [if_neg hnil]

/-- C9: Room discriminator isolation.  Comments live in `episodeRooms`
and chat messages in `chatMessages`, two disjoint stores: every
episode-room operation (join/append/delete/leave) leaves the chat store
untouched, every chat operation (join/send/history/leave) leaves the
episode store untouched, and neither kind of operation even reads the
other store — its resulting store-of-interest and its emissions depend
only on its own store and the socket.io membership. -/
theorem C9_room_isolation :
    (∀ (st : ServerState) (ev : CEvent), isEpisodeOp ev = true →
        (step st ev).1.chatMessages = st.chatMessages)
    ∧ (∀ (st : ServerState) (ev : CEvent), isChatOp ev = true →
        (step st ev).1.episodeRooms = st.episodeRooms)
    ∧ (∀ (st st' : ServerState) (ev : CEvent), isEpisodeOp ev = true →
        st.episodeRooms = st'.episodeRooms → st.sioRooms = st'.sioRooms →
        (step st ev).1.episodeRooms = (step st' ev).1.episodeRooms
        ∧ (step st ev).2 = (step st' ev).2)
    ∧ (∀ (st st' : ServerState) (ev : CEvent), isChatOp ev = true →
        st.chatMessages = st'.chatMessages → st.sioRooms = st'.sioRooms →
        (step st ev).1.chatMessages = (step st' ev).1.chatMessages
        ∧ (step st ev).2 = (step st' ev).2) := by
  refine ⟨?_, ?_, ?_, ?_⟩
  · intro st ev h
    cases ev with
    | joinEpisode sid a e => rfl
    | newComment sid c g t =>
        show (handleNewComment st sid c g t).1.chatMessages = st.chatMessages
        cases hm : mget st.episodeRooms (keyEpisode c.animeId c.episodeId) with
        | none => rw [handleNewComment_none st sid c g t hm]
        | some rd => rw [handleNewComment_some st sid c g t rd hm]
    | commentDeleted sid cid a e =>
        show (handleCommentDeleted st sid cid a e).1.chatMessages = st.chatMessages
        cases hm : mget st.episodeRooms (keyEpisode a e) with
        | none => rw [handleCommentDeleted_none st sid cid a e hm]
        | some rd => rw [handleCommentDeleted_some st sid cid a e rd hm]
    | leaveEpisode sid a e =>
        exact handleLeaveEpisode_chatMessages st sid a e
    | joinChat sid a e => simp [isEpisodeOp] at h
    | sendMessage sid m g t => simp [isEpisodeOp] at h
    | getChatHistory sid a e => simp [isEpisodeOp] at h
    | leaveChat sid a e => simp [isEpisodeOp] at h
    | disconnect sid => simp [isEpisodeOp] at h
  · intro st ev h
    cases ev with
    | joinChat sid a e =>
        show (handleJoinChat st sid a e).1.episodeRooms = st.episodeRooms
        dsimp only [handleJoinChat]
        split <;> rfl
    | sendMessage sid m g t =>
        show (handleSendMessage st sid m g t).1.episodeRooms = st.episodeRooms
        rw [handleSendMessage_eq st sid m g t]
    | getChatHistory sid a e => rfl
    | leaveChat sid a e =>
        exact sioLeave_episodeRooms st sid _
    | joinEpisode sid a e => simp [isChatOp] at h
    | newComment sid c g t => simp [isChatOp] at h
    | commentDeleted sid cid a e => simp [isChatOp] at h
    | leaveEpisode sid a e => simp [isChatOp] at h
    | disconnect sid => simp [isChatOp] at h
  · intro st st' ev h hep hsio
    cases ev with
    | joinEpisode sid a e =>
        constructor
        · show (handleJoinEpisode st sid a e).1.episodeRooms
            = (handleJoinEpisode st' sid a e).1.episodeRooms
          dsimp only [handleJoinEpisode, sioJoin]
          rw [hep]
        · show (handleJoinEpisode st sid a e).2 = (handleJoinEpisode st' sid a e).2
          dsimp only [handleJoinEpisode, sioJoin]
          rw [hep]
    | newComment sid c g t =>
        cases hm : mget st.episodeRooms (keyEpisode c.animeId c.episodeId) with
        | none =>
            have hm' : mget st'.episodeRooms (keyEpisode c.animeId c.episodeId)
                = none := by rw [← hep]; exact hm
            constructor
            · show (handleNewComment st sid c g t).1.episodeRooms
                = (handleNewComment st' sid c g t).1.episodeRooms
              rw [handleNewComment_none st sid c g t hm,
                handleNewComment_none st' sid c g t hm']
              exact hep
            · show (handleNewComment st sid c g t).2
                = (handleNewComment st' sid c g t).2
              rw [handleNewComment_none st sid c g t hm,
                handleNewComment_none st' sid c g t hm']
        | some rd =>
            have hm' : mget st'.episodeRooms (keyEpisode c.animeId c.episodeId)
                = some rd := by rw [← hep]; exact hm
            constructor
            · show (handleNewComment st sid c g t).1.episodeRooms
                = (handleNewComment st' sid c g t).1.episodeRooms
              rw [handleNewComment_some st sid c g t rd hm,
                handleNewComment_some st' sid c g t rd hm']
              dsimp only
              rw [hep]
            · show (handleNewComment st sid c g t).2
                = (handleNewComment st' sid c g t).2
              rw [handleNewComment_some st sid c g t rd hm,
                handleNewComment_some st' sid c g t rd hm']
              dsimp only [broadcast, sioMembers]
              rw [hsio]
    | commentDeleted sid cid a e =>
        cases hm : mget st.episodeRooms (keyEpisode a e) with
        | none =>
            have hm' : mget st'.episodeRooms (keyEpisode a e) = none := by
              rw [← hep]; exact hm
            constructor
            · show (handleCommentDeleted st sid cid a e).1.episodeRooms
                = (handleCommentDeleted st' sid cid a e).1.episodeRooms
              rw [handleCommentDeleted_none st sid cid a e hm,
                handleCommentDeleted_none st' sid cid a e hm']
              exact hep
            · show (handleCommentDeleted st sid cid a e).2
                = (handleCommentDeleted st' sid cid a e).2
              rw [handleCommentDeleted_none st sid cid a e hm,
                handleCommentDeleted_none st' sid cid a e hm']
        | some rd =>
            have hm' : mget st'.episodeRooms (keyEpisode a e) = some rd := by
              rw [← hep]; exact hm
            constructor
            · show (handleCommentDeleted st sid cid a e).1.episodeRooms
                = (handleCommentDeleted st' sid cid a e).1.episodeRooms
              rw [handleCommentDeleted_some st sid cid a e rd hm,
                handleCommentDeleted_some st' sid cid a e rd hm']
              dsimp only
              rw [hep]
            · show (handleCommentDeleted st sid cid a e).2
                = (handleCommentDeleted st' sid cid a e).2
              rw [handleCommentDeleted_some st sid cid a e rd hm,
                handleCommentDeleted_some st' sid cid a e rd hm']
              dsimp only [broadcast, sioMembers]
              rw [hsio]
    | leaveEpisode sid a e =>
        constructor
        · show (handleLeaveEpisode st sid a e).1.episodeRooms
            = (handleLeaveEpisode st' sid a e).1.episodeRooms
          rw [handleLeaveEpisode_episodeRooms, handleLeaveEpisode_episodeRooms, hep]
        · show (handleLeaveEpisode st sid a e).2 = (handleLeaveEpisode st' sid a e).2
          rw [handleLeaveEpisode_out, handleLeaveEpisode_out]
    | joinChat sid a e => simp [isEpisodeOp] at h
    | sendMessage sid m g t => simp [isEpisodeOp] at h
    | getChatHistory sid a e => simp [isEpisodeOp] at h
    | leaveChat sid a e => simp [isEpisodeOp] at h
    | disconnect sid => simp [isEpisodeOp] at h
  · intro st st' ev h hchat hsio
    cases ev with
    | joinChat sid a e =>
        constructor
        · show (handleJoinChat st sid a e).1.chatMessages
            = (handleJoinChat st' sid a e).1.chatMessages
          dsimp only [handleJoinChat, sioJoin]
          rw [hchat]
          split <;> rfl
        · rfl
    | sendMessage sid m g t =>
        constructor
        · show (handleSendMessage st sid m g t).1.chatMessages
            = (handleSendMessage st' sid m g t).1.chatMessages
          rw [handleSendMessage_eq st sid m g t, handleSendMessage_eq st' sid m g t]
          dsimp only
          rw [hchat]
        · show (handleSendMessage st sid m g t).2
            = (handleSendMessage st' sid m g t).2
          rw [handleSendMessage_eq st sid m g t, handleSendMessage_eq st' sid m g t]
          dsimp only [broadcast, sioMembers]
          rw [hsio]
    | getChatHistory sid a e =>
        constructor
        · exact hchat
        · show (handleGetChatHistory st sid a e).2
            = (handleGetChatHistory st' sid a e).2
          dsimp only [handleGetChatHistory]
          rw [hchat]
    | leaveChat sid a e =>
        constructor
        · show (sioLeave st sid (keyChat a e)).chatMessages
            = (sioLeave st' sid (keyChat a e)).chatMessages
          rw [sioLeave_chatMessages, sioLeave_chatMessages]
          exact hchat
        · rfl
    | joinEpisode sid a e => simp [isChatOp] at h
    | newComment sid c g t => simp [isChatOp] at h
    | commentDeleted sid cid a e => simp [isChatOp] at h
    | leaveEpisode sid a e => simp [isChatOp] at h
    | disconnect sid => simp [isChatOp] at h

/-- Witness for C9: the concrete comment post to `(42, 3)` leaves the
chat store unchanged, and the concrete chat message leaves the episode
store unchanged. -/
theorem C9_room_isolation_witness :
    (step c1state (CEvent.newComment "A" c1comment "gid" "t0")).1.chatMessages
      = c1state.chatMessages
    ∧ (step c1state (CEvent.sendMessage "A" c8msg "gen" "now")).1.episodeRooms
      = c1state.episodeRooms := by
  constructor
  · exact C9_room_isolation.1 c1state (CEvent.newComment "A" c1comment "gid" "t0") rfl
  · exact C9_room_isolation.2.1 c1state (CEvent.sendMessage "A" c8msg "gen" "now") rfl

/-- C10: episode-room lifecycle invariant.  After every event handler,
every room in the episode-room store has at least one member in its user
set (rooms are created with the joiner inside and deleted as soon as the
user set would become empty); when the last member leaves via
`leave_episode` or disconnects, the room entry — with all its stored
comments — is deleted, so a subsequent `join_episode` observes an empty
comment list; chat rooms and their histories are never deleted by
`leave_chat` or `disconnect`. -/
theorem C10_room_lifecycle :
    (∀ (evs : List CEvent) (p : String × RoomData),
        p ∈ (run initState evs).episodeRooms → p.2.users ≠ [])
    ∧ (∀ (st : ServerState) (sid a e : String) (rd : RoomData),
        keysNodup st.episodeRooms →
        mget st.episodeRooms (keyEpisode a e) = some rd →
        delMem sid rd.users = [] →
        mget (handleLeaveEpisode st sid a e).1.episodeRooms (keyEpisode a e)
          = none)
    ∧ (∀ (st : ServerState) (sid a e : String) (rd : RoomData),
        keysNodup st.episodeRooms →
        mget st.episodeRooms (keyEpisode a e) = some rd →
        sid ∈ rd.users → delMem sid rd.users = [] →
        mget (handleDisconnect st sid).1.episodeRooms (keyEpisode a e) = none)
    ∧ (∀ (st : ServerState) (sid a e : String),
        mget (sioJoin st sid (keyEpisode a e)).episodeRooms (keyEpisode a e)
          = none →
        (handleJoinEpisode st sid a e).2 = [(sid, SEvent.commentsUpdated [])])
    ∧ (∀ (st : ServerState) (sid a e : String),
        (handleLeaveChat st sid a e).1.chatMessages = st.chatMessages)
    ∧ (∀ (st : ServerState) (sid : String),
        (handleDisconnect st sid).1.chatMessages = st.chatMessages) := by
  refine ⟨?_, ?_, ?_, ?_, ?_, ?_⟩
  · intro evs p hp
    exact goodRooms_run evs initState (fun q hq => absurd hq (List.not_mem_nil q))
      p hp
  · intro st sid a e rd hnd h hdel
    rw [handleLeaveEpisode_episodeRooms, h]
    show mget (if delMem sid rd.users = []
               then mdel st.episodeRooms (keyEpisode a e)
               else mset st.episodeRooms (keyEpisode a e)
                 ⟨rd.animeId, rd.episodeId, rd.comments, delMem sid rd.users⟩)
        (keyEpisode a e) = none
    rw [if_pos hdel]
    exact mget_mdel_self hnd
  · intro st sid a e rd hnd h hmem hdel
    show mget (disconnectRooms sid st.episodeRooms) (keyEpisode a e) = none
    exact mget_disconnectRooms_del sid st.episodeRooms (keyEpisode a e) rd hnd h
      hmem hdel
  · intro st sid a e h
    rw [handleJoinEpisode_none st sid a e h]
  · intro st sid a e
    exact sioLeave_chatMessages st sid _
  · intro st sid
    rfl

/-- Witness for C10 at concrete inputs: the single joined room has a
member, the last leaver (or a disconnect) deletes the room, a fresh join
is answered with an empty comment list, and `leave_chat` keeps the chat
store. -/
theorem C10_room_lifecycle_witness :
    RoomData.users ⟨"42", "3", [], ["A"]⟩ ≠ []
    ∧ mget (handleLeaveEpisode c3state "A" "42" "3").1.episodeRooms
        (keyEpisode "42" "3") = none
    ∧ mget (handleDisconnect c3state "A").1.episodeRooms (keyEpisode "42" "3")
        = none
    ∧ (handleJoinEpisode initState "C" "9" "4").2
        = [("C", SEvent.commentsUpdated [])]
    ∧ (handleLeaveChat c3state "A" "42" "3").1.chatMessages
        = c3state.chatMessages := by
  refine ⟨?_, ?_, ?_, ?_, ?_⟩
  · exact C10_room_lifecycle.1 [CEvent.joinEpisode "A" "42" "3"]
      (keyEpisode "42" "3", ⟨"42", "3", [], ["A"]⟩) (by decide)
  · exact C10_room_lifecycle.2.1 c3state "A" "42" "3" ⟨"42", "3", [], ["A"]⟩
      (by decide) (by decide) (by decide)
  · exact C10_room_lifecycle.2.2.1 c3state "A" "42" "3" ⟨"42", "3", [], ["A"]⟩
      (by decide) (by decide) (by decide) (by decide)
  · exact C10_room_lifecycle.2.2.2.1 initState "C" "9" "4" (by decide)
  · exact C10_room_lifecycle.2.2.2.2.1 c3state "A" "42" "3"
